import Mathlib

/-!
Shallow embedding of `src/skill/mcp_directory_analyzer/main_end.py`:
a FastAPI service with three handlers (`list_directory`,
`read_document_chunk`, `save_summary_to_db`) over a filesystem and a
SQLite table `summaries`.  Decoded file text is modelled as `List Char`
(the handler decodes with `errors="ignore"`, so a decoded character
sequence always exists); Python `int` is `Int`; Python string slicing
`s[i:j]` is modelled exactly, including its negative-index semantics.
-/

namespace MCPAnalyzer

/-- Python slice-index resolution for `s[i:j]` (CPython `slice.indices`
with step 1): a negative index counts from the end of the string and is
then clamped to `[0, L]`; a nonnegative index is clamped to `L`. -/
def sliceIndex (L : Nat) (i : Int) : Nat :=
  if i < 0 then ((L : Int) + i).toNat else min L i.toNat

/-- Python string slice `s[i:j]` (step 1): the characters from the
resolved start index up to, but excluding, the resolved end index. -/
def pySlice (s : List Char) (i j : Int) : List Char :=
  (s.take (sliceIndex s.length j)).drop (sliceIndex s.length i)

/-- Rendering of the `progress` field.  When `total_len == 0` the code
returns the literal string `"0%"`; otherwise it formats
`round((end/total_len)*100, 1)` with IEEE-754 float arithmetic, which we
keep as the raw pair `(end, total_len)` rather than modelling float
rounding. -/
inductive Progress where
  | zeroLiteral : Progress
  | rounded : Int → Nat → Progress
deriving DecidableEq, Repr

/-- Response body of `read_document_chunk` (the dict built at lines
191-201 of `main_end.py`).  The echoed `path`/`filename` strings are
carried by the HTTP layer below; the numeric and content fields live
here. -/
structure ChunkResult where
  offset : Int
  next_offset : Option Int
  chunk_size : Nat
  total_length : Nat
  progress : Progress
  eof : Bool
  content : List Char
deriving DecidableEq, Repr

/-- Body of `read_document_chunk` after the file was found and decoded:
`total_len = len(text)`, `start = max(0, offset)`,
`end = min(total_len, start + chunk_size)`, `chunk = text[start:end]`,
`eof = end >= total_len`, `next_offset = end if not eof else None`,
and the returned `offset`/`chunk_size` fields are `start`/`len(chunk)`.
(`end` is a Lean keyword, hence `endIdx`.) -/
def read_document_chunk_core (text : List Char) (offset chunk_size : Int) : ChunkResult :=
  let total_len : Nat := text.length
  let start : Int := max 0 offset
  let endIdx : Int := min (total_len : Int) (start + chunk_size)
  let chunk : List Char := pySlice text start endIdx
  let eof : Bool := decide ((total_len : Int) ≤ endIdx)
  { offset := start
    next_offset := if eof then none else some endIdx
    chunk_size := chunk.length
    total_length := total_len
    progress := if 0 < total_len then Progress.rounded endIdx total_len else Progress.zeroLiteral
    eof := eof
    content := chunk }

/-- One filesystem entry as seen by `Path.iterdir`: its final name
component and whether it is a directory. -/
structure FsEntry where
  name : String
  is_dir : Bool
deriving DecidableEq, Repr

/-- A filesystem node: a file with its decoded text, or a directory with
its immediate entries. -/
inductive FsNode where
  | file : List Char → FsNode
  | dir : List FsEntry → FsNode
deriving DecidableEq, Repr

/-- The filesystem view: a partial map from path strings to nodes;
`fs p = none` models `Path(p).exists()` being false. -/
def Fs : Type := String → Option FsNode

/-- An `HTTPException(status_code, detail)` raised by a handler. -/
structure HTTPError where
  status_code : Nat
  detail : String
deriving DecidableEq, Repr

/-- Index of the last `.` in a list of characters, if any. -/
def lastDotIdx : List Char → Option Nat
  | [] => none
  | c :: cs =>
    match lastDotIdx cs with
    | some i => some (i + 1)
    | none => if c = '.' then some 0 else none

/-- Python `PurePath.suffix` of a final name component: `name[i:]` where
`i = name.rfind('.')`, provided `0 < i < len(name) - 1`, else `""`
(so `".txt"` and `"foo."` have empty suffix, `"a.TXT"` has `".TXT"`). -/
def pathSuffix (name : String) : String :=
  let cs := name.toList
  match lastDotIdx cs with
  | some i => if 0 < i ∧ i + 1 < cs.length then String.mk (cs.drop i) else ""
  | none => ""

/-- The extension whitelist of `list_directory`: `[".txt", ".md", ".pdf"]`. -/
def allowedSuffixes : List String := [".txt", ".md", ".pdf"]

/-- One element of the `files` array returned by `list_directory`. -/
structure DirectoryEntryOut where
  name : String
  path : String
  is_dir : Bool
deriving DecidableEq, Repr

/-- Response body of `list_directory`. -/
structure ListDirectoryResponse where
  path : String
  files : List DirectoryEntryOut
deriving DecidableEq, Repr

/-- Rendering of one kept entry: `{"name": f.name, "path": str(f),
"is_dir": f.is_dir()}`, where `str(f)` is the directory path joined with
the entry name. -/
def renderEntry (dirPath : String) (e : FsEntry) : DirectoryEntryOut :=
  { name := e.name, path := dirPath ++ "/" ++ e.name, is_dir := e.is_dir }

/-- Handler `list_directory`: 404 when the path does not exist; on a
directory, keep exactly the entries whose `suffix.lower()` is in the
whitelist (directories included) and render them.  Calling `iterdir()`
on a plain file raises `NotADirectoryError`, which FastAPI surfaces as a
500. -/
def list_directory (fs : Fs) (path : String) : Except HTTPError ListDirectoryResponse :=
  match fs path with
  | none => .error ⟨404, "Directory not found"⟩
  | some (.file _) => .error ⟨500, "NotADirectoryError"⟩
  | some (.dir entries) =>
    .ok { path := path
          files := (entries.filter
              (fun f => decide ((pathSuffix f.name).toLower ∈ allowedSuffixes))).map
            (renderEntry path) }

/-- Handler `read_document_chunk`: 404 when the path does not exist;
`read_text` on a directory raises `IsADirectoryError`, caught and
re-raised as a 500; on a file the decoded text (decoding never fails,
invalid bytes are dropped) is sliced by `read_document_chunk_core`. -/
def read_document_chunk (fs : Fs) (path : String) (offset chunk_size : Int) :
    Except HTTPError ChunkResult :=
  match fs path with
  | none => .error ⟨404, "File not found: " ++ path⟩
  | some (.dir _) => .error ⟨500, "Error reading file: IsADirectoryError"⟩
  | some (.file text) => .ok (read_document_chunk_core text offset chunk_size)

/-- One row of the `summaries` table (`document_id` is the primary key). -/
structure SummaryRow where
  document_id : String
  filename : String
  summary : String
  status : String
deriving DecidableEq, Repr

/-- SQLite `INSERT OR REPLACE` keyed on the primary key `document_id`:
any existing row with the same key is deleted and the new row inserted. -/
def insertOrReplace (table : List SummaryRow) (row : SummaryRow) : List SummaryRow :=
  (table.filter (fun r => r.document_id ≠ row.document_id)) ++ [row]

/-- Request body of `save_summary_to_db`.  Note the source declares
`status: str` (a plain string) — the `# completed | failed` comment and
the `/mcp/tools` catalog are not enforced by this model. -/
structure SaveSummaryRequest where
  document_id : String
  filename : String
  summary : String
  status : String
deriving DecidableEq, Repr

/-- Response body of `save_summary_to_db`. -/
structure SaveSummaryResponse where
  document_id : String
  filename : String
  status : String
  saved : Bool
deriving DecidableEq, Repr

/-- Handler `save_summary_to_db`: upsert the four request fields into
the `summaries` table and report success. -/
def save_summary_to_db (table : List SummaryRow) (req : SaveSummaryRequest) :
    List SummaryRow × SaveSummaryResponse :=
  (insertOrReplace table ⟨req.document_id, req.filename, req.summary, req.status⟩,
   { document_id := req.document_id, filename := req.filename, status := req.status,
     saved := true })

/-- A raw JSON body for `/save_summary_to_db` before Pydantic
validation: each declared field either present (with its string value)
or missing. -/
structure RawSaveSummaryBody where
  document_id : Option String
  filename : Option String
  summary : Option String
  status : Option String
deriving DecidableEq, Repr

/-- Pydantic validation of `SaveSummaryRequest`: all four fields are
required, and every field — including `status` — is typed `str`, so any
present string values validate. -/
def validate_save_summary (b : RawSaveSummaryBody) : Except String SaveSummaryRequest :=
  match b.document_id, b.filename, b.summary, b.status with
  | some d, some f, some s, some st => .ok ⟨d, f, s, st⟩
  | _, _, _, _ => .error "field required"

/-- The `enum` advertised for `status` in the `/mcp/tools` catalog
(lines 128-131 of `main_end.py`). -/
def mcpToolsStatusEnum : List String := ["completed", "failed"]

/-- The caller-side pagination loop the spec describes: call the chunk
reader at `o`, and if not `eof`, continue at `next_offset`, concatenating
the contents.  `fuel` bounds the number of calls so the loop is a total
function; the `none` result means the fuel ran out (or the unreachable
case of `eof = false` with no `next_offset`). -/
def paginate (text : List Char) (chunk_size : Int) : Nat → Int → Option (List Char)
  | 0, _ => none
  | fuel + 1, o =>
    let r := read_document_chunk_core text o chunk_size
    if r.eof then some r.content
    else
      match r.next_offset with
      | some o2 => (paginate text chunk_size fuel o2).map (fun rest => r.content ++ rest)
      | none => none

/-! ### Concrete filesystems used by witnesses and counterexamples -/

/-- A filesystem holding exactly one five-character file `doc.txt`. -/
def fsHello : Fs := fun p => if p = "doc.txt" then some (.file "hello".toList) else none

/-- A filesystem holding exactly one eleven-character file `story.txt`. -/
def fsStory : Fs := fun p =>
  if p = "story.txt" then some (.file "hello world".toList) else none

/-- A filesystem holding exactly one zero-length file `empty.txt`. -/
def fsEmptyFile : Fs := fun p => if p = "empty.txt" then some (.file []) else none

/-- Entries of the witness directory: matching and non-matching
extensions, mixed case, a directory with a matching suffix, and a file
with no extension. -/
def booksEntries : List FsEntry :=
  [⟨"a.TXT", false⟩, ⟨"b.doc", false⟩, ⟨"notes.md", true⟩, ⟨"c.pdf", false⟩,
   ⟨"README", false⟩]

/-- A filesystem holding exactly one directory `books`. -/
def fsBooks : Fs := fun p => if p = "books" then some (.dir booksEntries) else none

/-- The empty filesystem: no path exists. -/
def fsMissing : Fs := fun _ => none

/-! ### Helper lemmas -/

/-- Resolved slice indices never exceed the string length. -/
lemma sliceIndex_le (L : Nat) (i : Int) : sliceIndex L i ≤ L := by
  unfold sliceIndex
  split <;> omega

/-- Resolution of slice indices is monotone on nonnegative bounds. -/
lemma sliceIndex_mono (L : Nat) {j i : Int} (hj : 0 ≤ j) (hij : j ≤ i) :
    sliceIndex L j ≤ sliceIndex L i := by
  unfold sliceIndex
  have h1 : ¬(j < 0) := by omega
  have h2 : ¬(i < 0) := by omega
  simp only [if_neg h1, if_neg h2]
  omega

/-- A bound at or past the string length resolves to the length. -/
lemma sliceIndex_eq_length (L : Nat) {i : Int} (h : (L : Int) ≤ i) :
    sliceIndex L i = L := by
  unfold sliceIndex
  have h2 : ¬(i < 0) := by omega
  simp only [if_neg h2]
  omega

/-- Length of a Python slice in terms of the resolved indices. -/
lemma length_pySlice (s : List Char) (i j : Int) :
    (pySlice s i j).length = min (sliceIndex s.length j) s.length - sliceIndex s.length i := by
  simp [pySlice]

/-- A Python slice is empty as soon as the resolved start is at or past
the resolved end. -/
lemma pySlice_eq_nil (s : List Char) {i j : Int}
    (h : sliceIndex s.length j ≤ sliceIndex s.length i) : pySlice s i j = [] := by
  apply List.drop_eq_nil_of_le
  have := sliceIndex_le s.length j
  simp only [List.length_take]
  omega

/-- On nonnegative (Nat-cast) bounds a Python slice is take-then-drop. -/
lemma pySlice_natCast (s : List Char) (a b : Nat) :
    pySlice s (a : Int) (b : Int) =
      (s.take (min s.length b)).drop (min s.length a) := by
  unfold pySlice sliceIndex
  have ha : ¬((a : Int) < 0) := by omega
  have hb : ¬((b : Int) < 0) := by omega
  simp [ha, hb, Nat.min_comm]

/-- Getting back a suffix: gluing a middle slice `[a, b)` with the tail
from `b` yields the tail from `a`. -/
lemma take_drop_glue (l : List Char) (a b : Nat) (hab : a ≤ b) (hb : b ≤ l.length) :
    (l.take b).drop a ++ l.drop b = l.drop a := by
  have h1 : a ≤ (l.take b).length := by
    simp only [List.length_take]
    omega
  calc (l.take b).drop a ++ l.drop b
      = ((l.take b) ++ l.drop b).drop a := (List.drop_append_of_le_length h1).symm
    _ = l.drop a := by rw [List.take_append_drop]

/-- Equation: the `content` field of the chunk-reader core. -/
lemma core_content (text : List Char) (offset chunk_size : Int) :
    (read_document_chunk_core text offset chunk_size).content =
      pySlice text (max 0 offset) (min (text.length : Int) (max 0 offset + chunk_size)) := rfl

/-- Equation: the `eof` field of the chunk-reader core. -/
lemma core_eof (text : List Char) (offset chunk_size : Int) :
    (read_document_chunk_core text offset chunk_size).eof =
      decide ((text.length : Int) ≤ min (text.length : Int) (max 0 offset + chunk_size)) := rfl

/-- Equation: the `next_offset` field of the chunk-reader core. -/
lemma core_next_offset (text : List Char) (offset chunk_size : Int) :
    (read_document_chunk_core text offset chunk_size).next_offset =
      (if (read_document_chunk_core text offset chunk_size).eof then none
       else some (min (text.length : Int) (max 0 offset + chunk_size))) := rfl

/-- Equation: the `total_length` field of the chunk-reader core. -/
lemma core_total_length (text : List Char) (offset chunk_size : Int) :
    (read_document_chunk_core text offset chunk_size).total_length = text.length := rfl

/-! ### Claim theorems -/

/-- C4 (amended): on a zero-length file `read_document_chunk` returns
`total_length = 0`, `content = ""` and `progress = "0%"` for all integer
`offset` and `chunk_size`; but `eof` is true exactly when
`max 0 offset + chunk_size ≥ 0` (in particular for every nonnegative
`chunk_size`), not unconditionally: a negative `chunk_size` can drive
the computed `end` below `0` and `eof = (end >= total_len)` false. -/
theorem empty_file_chunk_fields (offset chunk_size : Int) :
    (read_document_chunk_core [] offset chunk_size).total_length = 0 ∧
    (read_document_chunk_core [] offset chunk_size).content = [] ∧
    (read_document_chunk_core [] offset chunk_size).progress = Progress.zeroLiteral ∧
    ((read_document_chunk_core [] offset chunk_size).eof = true ↔
      0 ≤ max 0 offset + chunk_size) := by
  refine ⟨rfl, ?_, rfl, ?_⟩
  · rw [core_content]
    simp [pySlice]
  · rw [core_eof]
    simp only [decide_eq_true_eq, List.length_nil, Nat.cast_zero]
    omega

/-- C4, counterexample to the claim as stated: on the empty file
`empty.txt` with `offset = 0`, `chunk_size = -1` the handler succeeds
with `eof = false` (and `next_offset = some (-1)`), not `eof = true`:
`end = min(0, 0 + (-1)) = -1` and `-1 >= 0` is false. -/
theorem empty_file_chunk_claim_false :
    read_document_chunk fsEmptyFile "empty.txt" 0 (-1) =
      .ok { offset := 0, next_offset := some (-1), chunk_size := 0, total_length := 0,
            progress := Progress.zeroLiteral, eof := false, content := [] } ∧
    (read_document_chunk_core [] 0 (-1)).eof = false := by
  exact ⟨rfl, rfl⟩

/-- C7 (confirmed): when the request path does not exist, both
`list_directory` and `read_document_chunk` fail with HTTP 404 and their
`detail` messages, touching no other state (both handlers are pure
functions of the filesystem view). -/
theorem missing_path_both_404 (fs : Fs) (p : String) (offset chunk_size : Int)
    (h : fs p = none) :
    list_directory fs p = .error ⟨404, "Directory not found"⟩ ∧
    read_document_chunk fs p offset chunk_size = .error ⟨404, "File not found: " ++ p⟩ := by
  unfold list_directory read_document_chunk
  rw [h]
  exact ⟨rfl, rfl⟩

/-- C7, witness: the empty filesystem at path `nope.txt`. -/
theorem missing_path_both_404_witness :
    fsMissing "nope.txt" = none ∧
    (list_directory fsMissing "nope.txt" = .error ⟨404, "Directory not found"⟩ ∧
     read_document_chunk fsMissing "nope.txt" 0 2000 =
       .error ⟨404, "File not found: " ++ "nope.txt"⟩) :=
  ⟨rfl, missing_path_both_404 fsMissing "nope.txt" 0 2000 rfl⟩

/-- C8 (code bug): the request model declares `status: str`, so a body
whose `status` is outside the advertised enum `["completed", "failed"]`
(here `"in_progress"`) passes validation, reaches the handler, is stored
in the table, and is reported `saved = true` — while the `/mcp/tools`
catalog and the source's own `# completed | failed` comment promise the
enum.  The spec's ValidationError never happens. -/
theorem invalid_status_accepted_and_stored :
    validate_save_summary
        ⟨some "doc1", some "a.txt", some "sum", some "in_progress"⟩ =
      .ok ⟨"doc1", "a.txt", "sum", "in_progress"⟩ ∧
    "in_progress" ∉ mcpToolsStatusEnum ∧
    (save_summary_to_db [] ⟨"doc1", "a.txt", "sum", "in_progress"⟩).1 =
      [⟨"doc1", "a.txt", "sum", "in_progress"⟩] ∧
    (save_summary_to_db [] ⟨"doc1", "a.txt", "sum", "in_progress"⟩).2.saved = true := by
  refine ⟨rfl, ?_, rfl, rfl⟩
  decide

/-- C9 (confirmed): every successful `read_document_chunk` result has
`next_offset = null` exactly when `eof` is true, and when `eof` is false
`next_offset` is the computed `end = min(total_length, max(0, offset) +
chunk_size)`. -/
theorem next_offset_null_iff_eof (fs : Fs) (p : String) (offset chunk_size : Int)
    (r : ChunkResult) (h : read_document_chunk fs p offset chunk_size = .ok r) :
    (r.next_offset = none ↔ r.eof = true) ∧
    (r.eof = false →
      r.next_offset = some (min ((r.total_length : Nat) : Int) (max 0 offset + chunk_size))) := by
  unfold read_document_chunk at h
  rcases hfs : fs p with _ | node
  · rw [hfs] at h; exact absurd h (by simp)
  rcases node with text | entries
  · rw [hfs] at h
    have hr : r = read_document_chunk_core text offset chunk_size := by
      exact (Except.ok.injEq _ _).mp h.symm
    subst hr
    rw [core_next_offset, core_eof, core_total_length]
    by_cases hle : (text.length : Int) ≤ min (text.length : Int) (max 0 offset + chunk_size)
    · simp [hle]
    · simp [hle]
  · rw [hfs] at h; exact absurd h (by simp)

/-- C9, witness: `doc.txt` (5 characters) read with `offset = 0`,
`chunk_size = 2` is a successful non-EOF result. -/
theorem next_offset_null_iff_eof_witness :
    ((read_document_chunk_core "hello".toList 0 2).next_offset = none ↔
      (read_document_chunk_core "hello".toList 0 2).eof = true) ∧
    ((read_document_chunk_core "hello".toList 0 2).eof = false →
      (read_document_chunk_core "hello".toList 0 2).next_offset =
        some (min (((read_document_chunk_core "hello".toList 0 2).total_length : Nat) : Int)
          (max 0 0 + 2))) :=
  next_offset_null_iff_eof fsHello "doc.txt" 0 2 _ rfl

/-- C10 (confirmed): every successful `read_document_chunk` result
reports `offset = max(0, requested offset)` (the clamped start, not the
caller's raw value) and `chunk_size = len(content)` (the returned
chunk's length, not the requested size). -/
theorem reported_offset_and_chunk_size (fs : Fs) (p : String) (offset chunk_size : Int)
    (r : ChunkResult) (h : read_document_chunk fs p offset chunk_size = .ok r) :
    r.offset = max 0 offset ∧ r.chunk_size = r.content.length := by
  unfold read_document_chunk at h
  rcases hfs : fs p with _ | node
  · rw [hfs] at h; exact absurd h (by simp)
  rcases node with text | entries
  · rw [hfs] at h
    have hr : r = read_document_chunk_core text offset chunk_size := by
      exact (Except.ok.injEq _ _).mp h.symm
    subst hr
    exact ⟨rfl, rfl⟩
  · rw [hfs] at h; exact absurd h (by simp)

/-- C10, witness: `doc.txt` read with `offset = -3`, `chunk_size = 9000`
reports `offset = 0` and `chunk_size = 5`. -/
theorem reported_offset_and_chunk_size_witness :
    (read_document_chunk_core "hello".toList (-3) 9000).offset = max 0 (-3) ∧
    (read_document_chunk_core "hello".toList (-3) 9000).chunk_size =
      (read_document_chunk_core "hello".toList (-3) 9000).content.length :=
  reported_offset_and_chunk_size fsHello "doc.txt" (-3) 9000 _ rfl

/-- C1 (amended): on an existing readable file the handler succeeds for
all integer `offset` and `chunk_size` with `start = max(0, offset)`,
`end = min(total_len, start + chunk_size)`, `content = text[start:end]`
under Python slice semantics, and `eof = (end >= total_len)`; `content`
is empty whenever `start >= end >= 0` or `start >= total_len` — but not
necessarily when `end < 0`, where the Python slice reads the bound from
the string's end. -/
theorem read_chunk_start_end_eof (fs : Fs) (p : String) (text : List Char)
    (offset chunk_size : Int) (h : fs p = some (.file text)) :
    ∃ r : ChunkResult, read_document_chunk fs p offset chunk_size = .ok r ∧
      r.content =
        pySlice text (max 0 offset) (min (text.length : Int) (max 0 offset + chunk_size)) ∧
      (0 ≤ min (text.length : Int) (max 0 offset + chunk_size) →
        min (text.length : Int) (max 0 offset + chunk_size) ≤ max 0 offset →
        r.content = []) ∧
      ((text.length : Int) ≤ max 0 offset → r.content = []) ∧
      (r.eof = true ↔
        (text.length : Int) ≤ min (text.length : Int) (max 0 offset + chunk_size)) := by
  refine ⟨read_document_chunk_core text offset chunk_size, ?_, core_content .., ?_, ?_, ?_⟩
  · unfold read_document_chunk
    rw [h]
  · intro he hse
    rw [core_content]
    exact pySlice_eq_nil text (sliceIndex_mono text.length he hse)
  · intro hs
    rw [core_content]
    apply pySlice_eq_nil
    have h2 : sliceIndex text.length (max 0 offset) = text.length :=
      sliceIndex_eq_length text.length (by omega)
    rw [h2]
    exact sliceIndex_le text.length _
  · rw [core_eof]
    simp only [decide_eq_true_eq]

/-- C1, counterexample to the claim as stated: `doc.txt` holds
`"hello"`; with `offset = 0`, `chunk_size = -2` we get `start = 0`,
`end = -2`, so `start >= end`, yet `content = "hel"` — Python resolves
the negative `end` as `5 - 2 = 3` — and the claim's "empty string when
start >= end" fails. -/
theorem read_chunk_claim_c1_false :
    read_document_chunk fsHello "doc.txt" 0 (-2) =
      .ok { offset := 0, next_offset := some (-2), chunk_size := 3, total_length := 5,
            progress := Progress.rounded (-2) 5, eof := false, content := "hel".toList } ∧
    min (("hello".toList.length : Nat) : Int) (max 0 0 + (-2)) ≤ max 0 0 ∧
    "hel".toList ≠ ([] : List Char) := by
  refine ⟨rfl, by decide, by decide⟩

/-- C1, witness: `doc.txt` read with `offset = 7`, `chunk_size = 1`
(start past the end of the file, empty content). -/
theorem read_chunk_start_end_eof_witness :
    fsHello "doc.txt" = some (FsNode.file "hello".toList) ∧
    (∃ r : ChunkResult, read_document_chunk fsHello "doc.txt" 7 1 = .ok r ∧
      r.content =
        pySlice "hello".toList (max 0 7)
          (min (("hello".toList.length : Nat) : Int) (max 0 7 + 1)) ∧
      (0 ≤ min (("hello".toList.length : Nat) : Int) (max 0 7 + 1) →
        min (("hello".toList.length : Nat) : Int) (max 0 7 + 1) ≤ max 0 7 →
        r.content = []) ∧
      ((("hello".toList.length : Nat) : Int) ≤ max 0 7 → r.content = []) ∧
      (r.eof = true ↔
        (("hello".toList.length : Nat) : Int) ≤
          min (("hello".toList.length : Nat) : Int) (max 0 7 + 1))) :=
  ⟨rfl, read_chunk_start_end_eof fsHello "doc.txt" "hello".toList 7 1 rfl⟩

/-- C2 (amended): with `start = max(0, offset)` and
`end = min(L, start + chunk_size)`, whenever `end >= 0` the content
length is `max(0, end - start)` and `eof = (end >= L)`.  The claim's own
formula used the raw `offset` instead of the clamped `start` and ignored
Python's negative-end slice semantics, and fails on both counts. -/
theorem read_chunk_length_eof (text : List Char) (offset chunk_size : Int)
    (h : 0 ≤ min (text.length : Int) (max 0 offset + chunk_size)) :
    (((read_document_chunk_core text offset chunk_size).content.length : Nat) : Int) =
      max 0 (min (text.length : Int) (max 0 offset + chunk_size) - max 0 offset) ∧
    ((read_document_chunk_core text offset chunk_size).eof = true ↔
      (text.length : Int) ≤ min (text.length : Int) (max 0 offset + chunk_size)) := by
  constructor
  · rw [core_content, length_pySlice]
    unfold sliceIndex
    split <;> split <;> omega
  · rw [core_eof]
    simp only [decide_eq_true_eq]

/-- C2, counterexample to the claim as stated: on `"hello"` (L = 5) with
`offset = -10`, `chunk_size = 3` the returned content is `"hel"` of
length 3 (the code clamps `start` to 0 before adding `chunk_size`), but
the claim's formula `max(0, min(L, offset+chunk_size) - max(0, offset))`
gives `max(0, min(5, -7) - 0) = 0`; and with `offset = -10`,
`chunk_size = 7` the code reports `eof = true` while the claim's
`min(L, offset+chunk_size) >= L` is `-3 >= 5`, false. -/
theorem read_chunk_claim_c2_false :
    ((read_document_chunk_core "hello".toList (-10) 3).content.length : Int) = 3 ∧
    max 0 (min (("hello".toList.length : Nat) : Int) ((-10) + 3) - max 0 (-10)) = 0 ∧
    (3 : Int) ≠ 0 ∧
    (read_document_chunk_core "hello".toList (-10) 7).eof = true ∧
    ¬((("hello".toList.length : Nat) : Int) ≤
        min (("hello".toList.length : Nat) : Int) ((-10) + 7)) := by
  refine ⟨by decide, by decide, by decide, by decide, by decide⟩

/-- C2, witness: `"hello"` with `offset = -10`, `chunk_size = 7`:
`end = min(5, 0 + 7) = 5 >= 0`, content is the whole file (length 5)
and `eof = true`. -/
theorem read_chunk_length_eof_witness :
    0 ≤ min (("hello".toList.length : Nat) : Int) (max 0 (-10) + 7) ∧
    ((((read_document_chunk_core "hello".toList (-10) 7).content.length : Nat) : Int) =
      max 0 (min (("hello".toList.length : Nat) : Int) (max 0 (-10) + 7) - max 0 (-10)) ∧
     ((read_document_chunk_core "hello".toList (-10) 7).eof = true ↔
      (("hello".toList.length : Nat) : Int) ≤
        min (("hello".toList.length : Nat) : Int) (max 0 (-10) + 7))) :=
  ⟨by decide, read_chunk_length_eof "hello".toList (-10) 7 (by decide)⟩

/-- C5 (confirmed): on an existing directory the handler succeeds and
its `files` are exactly the immediate entries whose `suffix.lower()` is
in `[".txt", ".md", ".pdf"]` — directories included, subject to the same
suffix filter — each rendered with its name, joined path and `is_dir`
flag. -/
theorem list_directory_suffix_filter (fs : Fs) (p : String) (entries : List FsEntry)
    (h : fs p = some (.dir entries)) :
    ∃ resp : ListDirectoryResponse, list_directory fs p = .ok resp ∧ resp.path = p ∧
      ∀ d : DirectoryEntryOut, d ∈ resp.files ↔
        ∃ e : FsEntry, e ∈ entries ∧ (pathSuffix e.name).toLower ∈ allowedSuffixes ∧
          d = renderEntry p e := by
  refine ⟨⟨p, (entries.filter
      (fun f => decide ((pathSuffix f.name).toLower ∈ allowedSuffixes))).map
        (renderEntry p)⟩, ?_, rfl, ?_⟩
  · unfold list_directory
    rw [h]
  · intro d
    simp only [List.mem_map, List.mem_filter, decide_eq_true_eq]
    constructor
    · rintro ⟨e, ⟨he, hsuf⟩, rfl⟩
      exact ⟨e, he, hsuf, rfl⟩
    · rintro ⟨e, he, hsuf, rfl⟩
      exact ⟨e, ⟨he, hsuf⟩, rfl⟩

/-- C5, witness: the `books` directory holding `a.TXT`, `b.doc`, a
subdirectory `notes.md`, `c.pdf` and `README`. -/
theorem list_directory_suffix_filter_witness :
    fsBooks "books" = some (FsNode.dir booksEntries) ∧
    (∃ resp : ListDirectoryResponse, list_directory fsBooks "books" = .ok resp ∧
      resp.path = "books" ∧
      ∀ d : DirectoryEntryOut, d ∈ resp.files ↔
        ∃ e : FsEntry, e ∈ booksEntries ∧ (pathSuffix e.name).toLower ∈ allowedSuffixes ∧
          d = renderEntry "books" e) :=
  ⟨rfl, list_directory_suffix_filter fsBooks "books" booksEntries rfl⟩

/-- After `INSERT OR REPLACE`, the rows keyed by the inserted id are
exactly the one new row, whatever the previous table held. -/
lemma filter_insertOrReplace_self (t : List SummaryRow) (row : SummaryRow) (id : String)
    (hid : row.document_id = id) :
    (insertOrReplace t row).filter
      (fun r => decide (r.document_id = id)) = [row] := by
  subst hid
  unfold insertOrReplace
  rw [List.filter_append, List.filter_filter]
  have h1 : (t.filter fun r =>
      decide (r.document_id = row.document_id) && decide (r.document_id ≠ row.document_id)) =
      [] := by
    rw [List.filter_eq_nil_iff]
    intro a _
    simp
  rw [h1]
  simp

/-- Folding any sequence of saves over a table with at-most-one row per
id preserves that bound. -/
lemma foldl_save_count_le_one (reqs : List SaveSummaryRequest) :
    ∀ t : List SummaryRow,
      (∀ id : String, (t.filter (fun r => decide (r.document_id = id))).length ≤ 1) →
      ∀ id : String,
        ((reqs.foldl (fun t q => (save_summary_to_db t q).1) t).filter
          (fun r => decide (r.document_id = id))).length ≤ 1 := by
  induction reqs with
  | nil => intro t hinv id; exact hinv id
  | cons q qs ih =>
    intro t hinv id
    apply ih
    intro id2
    have hstep : ((fun t q => (save_summary_to_db t q).1) t q) =
        insertOrReplace t ⟨q.document_id, q.filename, q.summary, q.status⟩ := rfl
    by_cases hcase : id2 = q.document_id
    · subst hcase
      rw [hstep, filter_insertOrReplace_self t
        ⟨q.document_id, q.filename, q.summary, q.status⟩ q.document_id rfl]
      simp
    · rw [hstep]
      unfold insertOrReplace
      rw [List.filter_append]
      have h2 : (([⟨q.document_id, q.filename, q.summary, q.status⟩] :
          List SummaryRow).filter (fun r => decide (r.document_id = id2))) = [] := by
        simp [Ne.symm hcase]
      rw [h2, List.append_nil]
      calc ((t.filter fun r => decide (r.document_id ≠ q.document_id)).filter
              (fun r => decide (r.document_id = id2))).length
          ≤ (t.filter (fun r => decide (r.document_id = id2))).length :=
            ((List.filter_sublist t).filter _).length_le
        _ ≤ 1 := hinv id2

/-- C6 (confirmed): starting from the empty table created by `init_db`,
after any sequence of saves ending with a save of `req`, the rows keyed
by `req.document_id` are exactly one row holding `req`'s four fields
(upsert replaces all fields, last write wins), and every id keys at most
one row; the model's upsert is total, so no uniqueness violation can be
raised. -/
theorem summaries_at_most_one_row (reqs : List SaveSummaryRequest) (req : SaveSummaryRequest) :
    (((reqs ++ [req]).foldl (fun t q => (save_summary_to_db t q).1) []).filter
        (fun r => decide (r.document_id = req.document_id)) =
      [⟨req.document_id, req.filename, req.summary, req.status⟩]) ∧
    ∀ id : String,
      (((reqs ++ [req]).foldl (fun t q => (save_summary_to_db t q).1) []).filter
        (fun r => decide (r.document_id = id))).length ≤ 1 := by
  constructor
  · rw [List.foldl_append]
    simp only [List.foldl_cons, List.foldl_nil]
    exact filter_insertOrReplace_self _ _ _ rfl
  · apply foldl_save_count_le_one
    intro id
    simp

/-- Pagination with a positive chunk size started anywhere inside the
file returns exactly the rest of the file, provided the fuel covers the
remaining distance (each call advances by at least one character). -/
lemma paginate_eq_drop (text : List Char) (c : Int) (hc : 1 ≤ c) :
    ∀ fuel (o : Nat), o ≤ text.length → text.length - o < fuel →
      paginate text c fuel (o : Int) = some (text.drop o) := by
  intro fuel
  induction fuel with
  | zero => intro o _ h2; omega
  | succ n ih =>
    intro o ho hfuel
    have hmax : max 0 ((o : Nat) : Int) = ((o : Nat) : Int) := by omega
    simp only [paginate, core_eof, core_next_offset, core_content, hmax]
    by_cases heof : (text.length : Int) ≤ ((o : Nat) : Int) + c
    · have hmin : min ((text.length : Nat) : Int) (((o : Nat) : Int) + c) =
          ((text.length : Nat) : Int) := by omega
      rw [hmin]
      have hslice : pySlice text ((o : Nat) : Int) ((text.length : Nat) : Int) =
          text.drop o := by
        rw [pySlice_natCast, Nat.min_self, List.take_length, Nat.min_eq_right ho]
      have hdt : (decide ((text.length : Int) ≤ ((text.length : Nat) : Int))) = true := by
        simp
      rw [hdt, hslice]
      rfl
    · have hm : min ((text.length : Nat) : Int) (((o : Nat) : Int) + c) =
          ((o + c.toNat : Nat) : Int) := by
        push_cast
        omega
      rw [hm]
      have hlt : o + c.toNat < text.length := by
        have := heof
        push_cast at hm
        omega
      have hd : decide ((text.length : Int) ≤ ((o + c.toNat : Nat) : Int)) = false := by
        simp only [decide_eq_false_iff_not]
        push_cast
        omega
      rw [hd]
      simp only [Bool.false_eq_true, if_false]
      rw [ih (o + c.toNat) (by omega) (by omega)]
      have hslice : pySlice text ((o : Nat) : Int) ((o + c.toNat : Nat) : Int) =
          (text.take (o + c.toNat)).drop o := by
        rw [pySlice_natCast, Nat.min_eq_right (by omega : o + c.toNat ≤ text.length),
          Nat.min_eq_right ho]
      rw [hslice]
      simp only [Option.map_some']
      rw [take_drop_glue text o (o + c.toNat) (by omega) (by omega)]

/-- C3 (confirmed): for any fixed positive `chunk_size` (in particular
the default 2000), paging from `offset = 0` and following `next_offset`
until `eof` reconstructs exactly the whole decoded file: each call
returns the slice `[start, next_offset)` and the next call starts where
the previous ended, so the concatenation has no gaps and no overlaps.
With a non-positive `chunk_size` on a nonempty file the loop never
reaches `eof`, so `chunk_size ≥ 1` is assumed. -/
theorem pagination_reconstructs (text : List Char) (chunk_size : Int) (fuel : Nat)
    (hc : 1 ≤ chunk_size) (hfuel : text.length < fuel) :
    paginate text chunk_size fuel 0 = some text := by
  have h := paginate_eq_drop text chunk_size hc fuel 0 (Nat.zero_le _) (by omega)
  simpa using h

/-- C3, witness: the eleven-character file `"hello world"` paged with
`chunk_size = 4` (three full chunks of 4, 4, 3 characters). -/
theorem pagination_reconstructs_witness :
    (1 : Int) ≤ 4 ∧ "hello world".toList.length < 12 ∧
    paginate "hello world".toList 4 12 0 = some ("hello world".toList) :=
  ⟨by decide, by decide,
   pagination_reconstructs "hello world".toList 4 12 (by decide) (by decide)⟩

end MCPAnalyzer
